import Mathlib

/-!
Verification of the Vagrant step of topgrade (src/steps/remote/vagrant.rs).

The Rust source is shallowly embedded. External process execution is modelled
by an oracle carried in the execution context: `runStatus` gives the exit
success of a spawned subcommand (the run-type execute + status_checked path)
and `runOutput` gives the captured stdout of output_checked_utf8 commands
(`none` models a non-zero exit or undecodable output). Every function that
spawns processes threads an explicit trace, the list of issued invocations in
order. Rust panics (unwrap on a malformed line, the unreachable arms) are
modelled as the error value `TopError.panicked`; unlike the other error
values, a panic is not catchable by a caller matching on a Result, which the
embedding of collect_boxes reflects. Scope-exit destruction of the
TemporaryPowerOn guard is modelled at its single use site: the guard release
runs after the in-guest command, on both its success and failure paths.
-/

/-- Character code 39, the single quote character, as used by the
outdated-report pattern of upgrade_vagrant_boxes. -/
def squote : Char := Char.ofNat 39

/-- Splits a character list at every character satisfying `p`, keeping empty
pieces, mirroring the Rust str::split method with a char pattern. The
accumulator holds the current piece reversed. -/
def splitPAux (p : Char → Bool) : List Char → List Char → List String
  | [], acc => [String.mk acc.reverse]
  | c :: cs, acc =>
    if p c then String.mk acc.reverse :: splitPAux p cs []
    else splitPAux p cs (c :: acc)

/-- Rust str::split with a char-predicate pattern: empty input gives one empty
piece, and empty pieces between adjacent separators are kept. -/
def splitP (p : Char → Bool) (s : String) : List String :=
  splitPAux p s.data []

/-- Rust str::split_whitespace: split on whitespace and drop empty pieces
(so runs of whitespace act as one separator and edges produce no tokens). -/
def splitWhitespace (s : String) : List String :=
  (splitP Char.isWhitespace s).filter (fun t => !(t == ""))

/-- Rust str::starts_with with a char pattern: the first character equals `c`. -/
def startsWithChar (c : Char) (s : String) : Bool :=
  match s.data with
  | [] => false
  | a :: _ => a == c

/-- The loop boundary of the status parser: a line that is empty or begins
with a carriage return ends the per-box listing section. -/
def statusLineEnds (l : String) : Bool :=
  l == "" || startsWithChar (Char.ofNat 13) l

/-- Rust Path::file_name on a Unix path string: the last path component that
is not empty and not the current-directory dot; `none` when there is no such
component or when it is the parent-directory marker. -/
def pathFileName (p : String) : Option String :=
  match ((splitP (fun c => c == '/') p).filter
      (fun c => !(c == "" || c == "."))).getLast? with
  | none => none
  | some c => if c == ".." then none else some c

/-- List concatenation of the images of `f`, used to state the aggregate
result of collect_boxes. -/
def concatMap (f : α → List β) : List α → List β
  | [] => []
  | a :: as2 => f a ++ concatMap f as2

/-- The BoxStatus enumeration of the source, the power state of one box as
observed at discovery time. -/
inductive BoxStatus where
  | powerOff
  | running
  | saved
  | aborted
deriving DecidableEq

/-- The strum-derived FromStr of BoxStatus with lowercase serialization:
exact match against the lowercase variant names, `none` for anything else
(the source then unwraps, i.e. panics). -/
def BoxStatus.fromStr (s : String) : Option BoxStatus :=
  if s == "poweroff" then some BoxStatus.powerOff
  else if s == "running" then some BoxStatus.running
  else if s == "saved" then some BoxStatus.saved
  else if s == "aborted" then some BoxStatus.aborted
  else none

/-- BoxStatus::powered_on: true only for Running. -/
def BoxStatus.powered_on : BoxStatus → Bool
  | BoxStatus.running => true
  | _ => false

/-- One discovered box: owning directory path, tool-assigned name, and the
immutable power status captured at discovery. -/
structure VagrantBox where
  path : String
  name : String
  initial_status : BoxStatus
deriving DecidableEq

/-- VagrantBox::smart_name: the name unless it is the placeholder "default",
in which case the final path segment of the owning directory. The source
unwraps the file-name option, so `none` here models the panic when the path
has no final component. -/
def VagrantBox.smart_name (b : VagrantBox) : Option String :=
  if b.name == "default" then pathFileName b.path
  else some b.name

/-- The Display implementation of VagrantBox: name, at sign, path. -/
def VagrantBox.displayString (b : VagrantBox) : String :=
  b.name ++ " @ " ++ b.path

/-- One external process invocation: program, arguments, and the working
directory when one is set with current_dir. -/
structure Invocation where
  program : String
  args : List String
  cwd : Option String
deriving DecidableEq

/-- The failure outcomes of the embedded functions. `skip` is the SkipStep
signal carrying its message; `cmdFailed` a non-zero exit or undecodable
output of an external command; `noDirectories` the missing-configuration
error of collect_boxes; `toolNotFound` a failed utils::require; `panicked`
a Rust panic (unwrap or unreachable), which no caller can catch. -/
inductive TopError where
  | skip (msg : String)
  | cmdFailed
  | noDirectories
  | toolNotFound
  | panicked
deriving DecidableEq

/-- The execution context and ambient world: configuration accessors of the
source plus the oracle for external process results. -/
structure ExecutionContext where
  vagrant_directories : Option (List String)
  vagrant_power_on : Option Bool
  vagrant_always_suspend : Option Bool
  yes_vagrant : Bool
  require_vagrant : Option String
  runStatus : Invocation → Bool
  runOutput : Invocation → Option String

/-- The Vagrant wrapper of the source, holding the resolved tool path. -/
structure Vagrant where
  path : String

/-- Parsing of one retained status line: whitespace tokens, first token the
name, second token the status keyword. Missing tokens or an unknown keyword
are unwrap panics in the source. -/
def parseBoxLine (path : String) (line : String) : Except TopError VagrantBox :=
  match splitWhitespace line with
  | [] => Except.error TopError.panicked
  | [_] => Except.error TopError.panicked
  | nm :: st :: _ =>
    match BoxStatus.fromStr st with
    | none => Except.error TopError.panicked
    | some status => Except.ok { path := path, name := nm, initial_status := status }

/-- Parsing of the retained status lines in order; the first panic aborts,
so no partial record list is ever produced. -/
def parseLines (path : String) : List String → Except TopError (List VagrantBox)
  | [] => Except.ok []
  | l :: ls =>
    match parseBoxLine path l with
    | Except.error e => Except.error e
    | Except.ok b =>
      match parseLines path ls with
      | Except.error e => Except.error e
      | Except.ok bs => Except.ok (b :: bs)

/-- Vagrant::get_boxes: run the status query in the directory, split stdout
into lines, skip the two header lines, take lines up to the first empty or
carriage-return line, and parse each retained line. -/
def Vagrant.get_boxes (v : Vagrant) (w : ExecutionContext) (directory : String)
    (trace : List Invocation) :
    Except TopError (List VagrantBox) × List Invocation :=
  let inv : Invocation := { program := v.path, args := ["status"], cwd := some directory }
  match w.runOutput inv with
  | none => (Except.error TopError.cmdFailed, trace ++ [inv])
  | some stdout =>
    (parseLines directory
      (((splitP (fun c => c == '\n') stdout).drop 2).takeWhile
        (fun l => !(statusLineEnds l))),
     trace ++ [inv])

/-- The power-up subcommand chosen by TemporaryPowerOn::create; `none` is the
unreachable arm for Running, a panic. -/
def powerUpSub : BoxStatus → Option String
  | BoxStatus.powerOff => some "up"
  | BoxStatus.aborted => some "up"
  | BoxStatus.saved => some "resume"
  | BoxStatus.running => none

/-- The guard owed a restoration: tool path and the box it powered on. -/
structure TemporaryPowerOn where
  vagrant : String
  vagrant_box : VagrantBox
deriving DecidableEq

/-- TemporaryPowerOn::create: run the power-up subcommand with the box name,
in the box directory; a non-zero exit aborts guard creation. -/
def TemporaryPowerOn.create (vagrant : String) (vagrant_box : VagrantBox)
    (w : ExecutionContext) (trace : List Invocation) :
    Except TopError TemporaryPowerOn × List Invocation :=
  match powerUpSub vagrant_box.initial_status with
  | none => (Except.error TopError.panicked, trace)
  | some subcommand =>
    let inv : Invocation :=
      { program := vagrant, args := [subcommand, vagrant_box.name],
        cwd := some vagrant_box.path }
    if w.runStatus inv then
      (Except.ok { vagrant := vagrant, vagrant_box := vagrant_box }, trace ++ [inv])
    else (Except.error TopError.cmdFailed, trace ++ [inv])

/-- The restoration subcommand chosen in the Drop implementation: suspend
whenever the always-suspend policy (defaulted to false) holds, else halt for
PowerOff and Aborted, suspend for Saved; `none` is the unreachable Running
arm, a panic. -/
def restoreSub (alwaysSuspend : Bool) (st : BoxStatus) : Option String :=
  if alwaysSuspend then some "suspend"
  else
    match st with
    | BoxStatus.powerOff => some "halt"
    | BoxStatus.aborted => some "halt"
    | BoxStatus.saved => some "suspend"
    | BoxStatus.running => none

/-- The Drop implementation of TemporaryPowerOn: run the restoration
subcommand in the box directory, discarding its exit status (ok() in the
source). Returns the extended trace, or `none` for the unreachable panic. -/
def TemporaryPowerOn.drop (g : TemporaryPowerOn) (w : ExecutionContext)
    (trace : List Invocation) : Option (List Invocation) :=
  match restoreSub (w.vagrant_always_suspend.getD false) g.vagrant_box.initial_status with
  | none => none
  | some subcommand =>
    some (trace ++ [{ program := g.vagrant,
                      args := [subcommand, g.vagrant_box.name],
                      cwd := some g.vagrant_box.path }])

/-- The SkipStep message of topgrade_vagrant_box, interpolating the Display
form of the box. -/
def skipMessage (b : VagrantBox) : String :=
  "Skipping powered off box " ++ b.displayString

/-- The in-guest command string: the namespacing environment variable set to
the smart name, then topgrade, with the auto-confirm flag when the yes
policy applies to the Vagrant step. -/
def sshCommandString (sname : String) (yes : Bool) : String :=
  "env TOPGRADE_PREFIX=" ++ sname ++ " topgrade" ++ (if yes then " -y" else "")

/-- The tail of topgrade_vagrant_box shared by both power states: run the
remote-command subcommand in the box directory, then release the guard when
one was created; the guard release happens on both the success and the
failure path of the in-guest command and its own failure is discarded. -/
def runSshPhase (w : ExecutionContext) (vagrant : String) (b : VagrantBox)
    (sname : String) (trace : List Invocation) (og : Option TemporaryPowerOn) :
    Except TopError Unit × List Invocation :=
  let inv : Invocation :=
    { program := vagrant, args := ["ssh", "-c", sshCommandString sname w.yes_vagrant],
      cwd := some b.path }
  let res : Except TopError Unit :=
    if w.runStatus inv then Except.ok () else Except.error TopError.cmdFailed
  let tr := trace ++ [inv]
  match og with
  | none => (res, tr)
  | some g =>
    match TemporaryPowerOn.drop g w tr with
    | none => (Except.error TopError.panicked, tr)
    | some tr2 => (res, tr2)

/-- topgrade_vagrant_box: resolve the tool, compute the smart name (a panic
aborts before any invocation), then: an already running box goes straight to
the in-guest command; a non-running box is skipped when the power-on policy
is disabled, else a guard is created (its failure aborts the run) and the
in-guest command runs under it. -/
def topgrade_vagrant_box (w : ExecutionContext) (b : VagrantBox)
    (trace : List Invocation) : Except TopError Unit × List Invocation :=
  match w.require_vagrant with
  | none => (Except.error TopError.toolNotFound, trace)
  | some vagrant =>
    match b.smart_name with
    | none => (Except.error TopError.panicked, trace)
    | some sname =>
      if b.initial_status.powered_on then
        runSshPhase w vagrant b sname trace none
      else if !(w.vagrant_power_on.getD true) then
        (Except.error (TopError.skip (skipMessage b)), trace)
      else
        match TemporaryPowerOn.create vagrant b w trace with
        | (Except.error e, tr) => (Except.error e, tr)
        | (Except.ok g, tr) => runSshPhase w vagrant b sname tr (some g)

/-- The directory loop of collect_boxes: a Result error of get_boxes is
logged and the directory skipped, but a panic aborts the whole loop, since a
Rust panic is not caught by matching on the Result. -/
def collectLoop (v : Vagrant) (w : ExecutionContext) :
    List String → List Invocation →
    Except TopError (List VagrantBox) × List Invocation
  | [], trace => (Except.ok [], trace)
  | d :: ds, trace =>
    match v.get_boxes w d trace with
    | (Except.error TopError.panicked, tr) => (Except.error TopError.panicked, tr)
    | (Except.error _, tr) => collectLoop v w ds tr
    | (Except.ok boxes, tr) =>
      match collectLoop v w ds tr with
      | (Except.ok rest, tr2) => (Except.ok (boxes ++ rest), tr2)
      | (Except.error e, tr2) => (Except.error e, tr2)

/-- collect_boxes: require the configured directories and the tool, then
accumulate the boxes of every directory whose discovery succeeds. -/
def collect_boxes (w : ExecutionContext) (trace : List Invocation) :
    Except TopError (List VagrantBox) × List Invocation :=
  match w.vagrant_directories with
  | none => (Except.error TopError.noDirectories, trace)
  | some directories =>
    match w.require_vagrant with
    | none => (Except.error TopError.toolNotFound, trace)
    | some vpath => collectLoop { path := vpath } w directories trace

/-- Drops the literal character sequence from the front of the input, `none`
when the input does not start with it. -/
def dropLit : List Char → List Char → Option (List Char)
  | [], cs => some cs
  | _ :: _, [] => none
  | l :: ls, c :: cs => if c == l then dropLit ls cs else none

/-- The literal opening of the outdated-report pattern: star, space, quote. -/
def litStart : List Char := ['*', ' ', squote]

/-- The literal between the two captures: quote, space, for, space, quote. -/
def litFor : List Char := [squote, ' ', 'f', 'o', 'r', ' ', squote]

/-- The literal closing the pattern: quote, space, is outdated. -/
def litOutdated : List Char :=
  [squote, ' ', 'i', 's', ' ', 'o', 'u', 't', 'd', 'a', 't', 'e', 'd']

/-- The lazy second capture of the outdated-report regex: scan for the first
position where the closing literal matches, never crossing a newline (the
dot of the regex does not match newlines). -/
def matchCap2 (acc : List Char) (cs : List Char) : Option (List Char × List Char) :=
  match dropLit litOutdated cs, cs with
  | some rest, _ => some (acc.reverse, rest)
  | none, [] => none
  | none, c :: cs2 => if c == '\n' then none else matchCap2 (c :: acc) cs2

/-- The lazy first capture with backtracking: at each position, succeed if
the middle literal matches here and the second capture succeeds after it,
else extend the capture by one non-newline character. -/
def matchCap1 (acc : List Char) (cs : List Char) :
    Option (List Char × List Char × List Char) :=
  match (match dropLit litFor cs with
         | some rest => (matchCap2 [] rest).map (fun pr => (acc.reverse, pr.1, pr.2))
         | none => none), cs with
  | some r, _ => some r
  | none, [] => none
  | none, c :: cs2 => if c == '\n' then none else matchCap1 (c :: acc) cs2

/-- One attempted match of the outdated-report pattern at the current
position: the opening literal, then the two lazy captures; returns box name,
provider, and the rest of the input after the match. -/
def matchAt (cs : List Char) : Option (String × String × List Char) :=
  match dropLit litStart cs with
  | none => none
  | some rest =>
    match matchCap1 [] rest with
    | none => none
    | some (c1, c2, rest2) => some (String.mk c1, String.mk c2, rest2)

/-- The scan of captures_iter: successive non-overlapping leftmost matches,
resuming after each match and advancing one character where no match starts.
The fuel starts one above the input length and every step consumes at least
one input character, so it never runs out. -/
def findMatchesGo : Nat → List Char → List (String × String)
  | 0, _ => []
  | fuel + 1, cs =>
    match matchAt cs, cs with
    | some (b, p, rest), _ => (b, p) :: findMatchesGo fuel rest
    | none, [] => []
    | none, _ :: cs2 => findMatchesGo fuel cs2

/-- All outdated-report entries of the text, in report order. -/
def findMatches (cs : List Char) : List (String × String) :=
  findMatchesGo (cs.length + 1) cs

/-- The per-entry update invocation of upgrade_vagrant_boxes, naming both the
box and the provider. -/
def updateInv (vagrant : String) (entry : String × String) : Invocation :=
  { program := vagrant,
    args := ["box", "update", "--box", entry.1, "--provider", entry.2],
    cwd := none }

/-- The trailing prune invocation. -/
def pruneInv (vagrant : String) : Invocation :=
  { program := vagrant, args := ["box", "prune"], cwd := none }

/-- The global outdated-report query invocation. -/
def outdatedInv (vagrant : String) : Invocation :=
  { program := vagrant, args := ["box", "outdated", "--global"], cwd := none }

/-- The outcome of upgrade_vagrant_boxes: result, issued invocations, and
whether the no-outdated-boxes message was printed. -/
structure UpgradeOutcome where
  result : Except TopError Unit
  trace : List Invocation
  printedNoOutdated : Bool

/-- upgrade_vagrant_boxes: require the tool, query the global outdated
report, issue one update per matched entry in order with its exit status
discarded, then either print the no-outdated-boxes message (no entries) or
run a single prune whose failure propagates. -/
def upgrade_vagrant_boxes (w : ExecutionContext) (trace : List Invocation) :
    UpgradeOutcome :=
  match w.require_vagrant with
  | none =>
    { result := Except.error TopError.toolNotFound, trace := trace,
      printedNoOutdated := false }
  | some vagrant =>
    match w.runOutput (outdatedInv vagrant) with
    | none =>
      { result := Except.error TopError.cmdFailed,
        trace := trace ++ [outdatedInv vagrant], printedNoOutdated := false }
    | some stdout =>
      let entries := findMatches stdout.data
      let tr := trace ++ [outdatedInv vagrant] ++ entries.map (updateInv vagrant)
      if entries.isEmpty then
        { result := Except.ok (), trace := tr, printedNoOutdated := true }
      else
        { result := if w.runStatus (pruneInv vagrant) then Except.ok ()
                    else Except.error TopError.cmdFailed,
          trace := tr ++ [pruneInv vagrant], printedNoOutdated := false }

/-- A restoration attempt: an invocation whose subcommand is halt or
suspend. -/
def isRestoreInv (i : Invocation) : Bool :=
  i.args.head? == some "halt" || i.args.head? == some "suspend"

/-- Lowercasing of every character of a string. -/
def lowerStr (s : String) : String := String.mk (s.data.map Char.toLower)

/-- Case-insensitive match against some variant of the BoxStatus
enumeration, the wording of the specification for the status keyword. -/
def boxKeywordCI (s : String) : Bool :=
  lowerStr s == "poweroff" || lowerStr s == "running" ||
  lowerStr s == "saved" || lowerStr s == "aborted"

/-- The boxes of one directory that collect_boxes keeps: the parsed records
on success, nothing when discovery failed. -/
def okBoxes : Except TopError (List VagrantBox) → List VagrantBox
  | Except.ok bs => bs
  | Except.error _ => []

/-- The single quote character as a one-character string, for building
concrete outdated-report texts. -/
def quoteStr : String := String.mk [squote]

/-- A concrete box whose name is the placeholder, owned by /vm/web, found
suspended. -/
def boxWeb : VagrantBox :=
  { path := "/vm/web", name := "default", initial_status := BoxStatus.saved }

/-- A concrete box found powered off. -/
def boxDb : VagrantBox :=
  { path := "/vm/db", name := "db", initial_status := BoxStatus.powerOff }

/-- A concrete world where every spawned subcommand succeeds and no captured
output is needed. -/
def wAllOk : ExecutionContext :=
  { vagrant_directories := some ["/vm/web"]
    vagrant_power_on := some true
    vagrant_always_suspend := some false
    yes_vagrant := true
    require_vagrant := some "vagrant"
    runStatus := fun _ => true
    runOutput := fun _ => none }

/-- A concrete world with the power-on policy disabled. -/
def wNoPowerOn : ExecutionContext :=
  { wAllOk with vagrant_power_on := some false, yes_vagrant := false }

/-- A concrete world with the always-suspend policy enabled. -/
def wAlwaysSuspend : ExecutionContext :=
  { wAllOk with vagrant_always_suspend := some true }

/-- A concrete status-listing text: one header line, one blank separator,
two well-formed box lines, a blank terminator, then trailing prose. -/
def statusTextTwo : String :=
  "Current machine states:\n\ndefault saved (virtualbox)\nweb running (virtualbox)\n\nThis environment represents multiple VMs.\n"

/-- A concrete status-listing text whose single box line carries an unknown
status keyword. -/
def statusTextBad : String :=
  "Current machine states:\n\ndefault halted (virtualbox)\n\n"

/-- A concrete world for the parsing claims: the status query yields the
malformed listing under /a and the well-formed listing under /b. -/
def wParse : ExecutionContext :=
  { vagrant_directories := some ["/a", "/b"]
    vagrant_power_on := some true
    vagrant_always_suspend := some false
    yes_vagrant := false
    require_vagrant := some "vagrant"
    runStatus := fun _ => true
    runOutput := fun i =>
      if i.cwd == some "/a" then some statusTextBad
      else if i.cwd == some "/b" then some statusTextTwo
      else none }

/-- A concrete world whose status query fails outright under /a and yields
the well-formed listing under /b. -/
def wExitFail : ExecutionContext :=
  { wParse with
    runOutput := fun i => if i.cwd == some "/b" then some statusTextTwo else none }

/-- A concrete outdated report with two matching entries around one
non-matching line. -/
def outdatedTextTwo : String :=
  "* " ++ quoteStr ++ "alpine" ++ quoteStr ++ " for " ++ quoteStr ++ "libvirt" ++ quoteStr ++
  " is outdated\nsome other informational line\n* " ++ quoteStr ++ "jammy" ++ quoteStr ++
  " for " ++ quoteStr ++ "virtualbox" ++ quoteStr ++ " is outdated\n"

/-- A concrete report with no matching entry. -/
def outdatedTextNone : String := "All boxes are up to date.\n"

/-- A concrete world for fleet reconciliation: the outdated query yields the
two-entry report and every update or prune succeeds. -/
def wOutdated : ExecutionContext :=
  { wAllOk with
    runOutput := fun i =>
      if i == outdatedInv "vagrant" then some outdatedTextTwo else none }

/-- The same world with the empty report. -/
def wNoOutdated : ExecutionContext :=
  { wAllOk with
    runOutput := fun i =>
      if i == outdatedInv "vagrant" then some outdatedTextNone else none }

/-- A concrete world where the power-up subcommand resume fails and every
other subcommand succeeds. -/
def wUpFails : ExecutionContext :=
  { wAllOk with runStatus := fun i => !(i.args.head? == some "resume") }

/-- A concrete world where every restoration subcommand fails and everything
else succeeds. -/
def wRestoreFails : ExecutionContext :=
  { wAllOk with runStatus := fun i => !(isRestoreInv i) }

/-- Two strings with the same character data are equal. -/
theorem string_data_inj {a b : String} (h : a.data = b.data) : a = b := by
  cases a
  cases b
  exact congrArg String.mk h

/-- The character data of a string concatenation. -/
theorem string_append_data (a b : String) : (a ++ b).data = a.data ++ b.data := rfl

/-- Every piece produced by the split accumulator appears contiguously in the
accumulated input. -/
theorem splitPAux_substring (p : Char → Bool) :
    ∀ (cs acc : List Char) (t : String), t ∈ splitPAux p cs acc →
    ∃ u v : List Char, acc.reverse ++ cs = u ++ t.data ++ v := by
  intro cs
  induction cs with
  | nil =>
    intro acc t ht
    simp only [splitPAux, List.mem_singleton] at ht
    subst ht
    exact ⟨[], [], by simp⟩
  | cons c cs ih =>
    intro acc t ht
    by_cases hc : p c
    · simp only [splitPAux, hc, if_pos, List.mem_cons] at ht
      rcases ht with ht | ht
      · subst ht
        exact ⟨[], c :: cs, by simp⟩
      · obtain ⟨u, v, huv⟩ := ih [] t ht
        simp only [List.reverse_nil, List.nil_append] at huv
        refine ⟨acc.reverse ++ [c] ++ u, v, ?_⟩
        rw [show acc.reverse ++ c :: cs = acc.reverse ++ [c] ++ cs by simp, huv]
        simp [List.append_assoc]
    · simp only [splitPAux, hc, if_neg, not_false_iff] at ht
      obtain ⟨u, v, huv⟩ := ih (c :: acc) t ht
      rw [List.reverse_cons] at huv
      refine ⟨u, v, ?_⟩
      rw [show acc.reverse ++ c :: cs = acc.reverse ++ [c] ++ cs by simp, ← huv]

/-- Every piece produced by splitP is a contiguous substring of the input. -/
theorem mem_splitP_substring (p : Char → Bool) (s t : String)
    (ht : t ∈ splitP p s) : ∃ u v : String, s = u ++ t ++ v := by
  obtain ⟨u, v, huv⟩ := splitPAux_substring p s.data [] t ht
  simp only [List.reverse_nil, List.nil_append] at huv
  refine ⟨String.mk u, String.mk v, ?_⟩
  apply string_data_inj
  rw [string_append_data, string_append_data]
  exact huv

/-- The file-name component returned by pathFileName occurs contiguously in
the path. -/
theorem pathFileName_substring (pth c : String) (h : pathFileName pth = some c) :
    ∃ u v : String, pth = u ++ c ++ v := by
  unfold pathFileName at h
  rcases hl : ((splitP (fun c => c == '/') pth).filter
      (fun c => !(c == "" || c == "."))).getLast? with _ | c2
  · rw [hl] at h
    have h2 : (none : Option String) = some c := h
    exact absurd h2 (by simp)
  · rw [hl] at h
    have h2 : (if (c2 == "..") = true then (none : Option String) else some c2) = some c := h
    by_cases hdd : (c2 == "..") = true
    · rw [if_pos hdd] at h2
      exact absurd h2 (by simp)
    · rw [if_neg hdd] at h2
      have hc2 : c2 = c := by
        injection h2
      subst hc2
      have hmem : c2 ∈ (splitP (fun c => c == '/') pth).filter
          (fun c => !(c == "" || c == ".")) := List.mem_of_getLast?_eq_some hl
      exact mem_splitP_substring _ pth c2 (List.mem_filter.mp hmem).1

/-- A keyword accepted by the strum FromStr matches a variant already in its
case-insensitive reading. -/
theorem fromStr_some_keywordCI {s : String} {x : BoxStatus}
    (h : BoxStatus.fromStr s = some x) : boxKeywordCI s = true := by
  unfold BoxStatus.fromStr at h
  by_cases h1 : (s == "poweroff") = true
  · have : s = "poweroff" := by simpa using h1
    subst this
    decide
  · rw [if_neg h1] at h
    by_cases h2 : (s == "running") = true
    · have : s = "running" := by simpa using h2
      subst this
      decide
    · rw [if_neg h2] at h
      by_cases h3 : (s == "saved") = true
      · have : s = "saved" := by simpa using h3
        subst this
        decide
      · rw [if_neg h3] at h
        by_cases h4 : (s == "aborted") = true
        · have : s = "aborted" := by simpa using h4
          subst this
          decide
        · rw [if_neg h4] at h
          exact absurd h (by simp)

/-- Every failure of the line parser is the modelled panic. -/
theorem parseBoxLine_error {p l : String} {e : TopError}
    (h : parseBoxLine p l = Except.error e) : e = TopError.panicked := by
  unfold parseBoxLine at h
  rcases hs : splitWhitespace l with _ | ⟨nm, _ | ⟨st, ts⟩⟩ <;> rw [hs] at h
  · have h2 : (Except.error TopError.panicked : Except TopError VagrantBox) =
        Except.error e := h
    injection h2 with h2
    exact h2.symm
  · have h2 : (Except.error TopError.panicked : Except TopError VagrantBox) =
        Except.error e := h
    injection h2 with h2
    exact h2.symm
  · have h2 : (match BoxStatus.fromStr st with
        | none => (Except.error TopError.panicked : Except TopError VagrantBox)
        | some status =>
            Except.ok { path := p, name := nm, initial_status := status }) =
        Except.error e := h
    rcases hf : BoxStatus.fromStr st with _ | status <;> rw [hf] at h2
    · have h3 : (Except.error TopError.panicked : Except TopError VagrantBox) =
          Except.error e := h2
      injection h3 with h3
      exact h3.symm
    · have h3 : (Except.ok { path := p, name := nm, initial_status := status } :
          Except TopError VagrantBox) = Except.error e := h2
      exact absurd h3 (by simp)

/-- A panic on any retained line aborts the whole parse with the panic. -/
theorem parseLines_bad {p : String} {ls : List String}
    (h : ∃ l ∈ ls, parseBoxLine p l = Except.error TopError.panicked) :
    parseLines p ls = Except.error TopError.panicked := by
  induction ls with
  | nil => simp at h
  | cons l0 ls ih =>
    obtain ⟨l, hl, hbad⟩ := h
    rcases hp : parseBoxLine p l0 with e | b
    · rw [parseLines, hp]
      rw [parseBoxLine_error hp]
    · rcases List.mem_cons.mp hl with rfl | hl2
      · rw [hp] at hbad
        exact absurd hbad (by simp)
      · rw [parseLines, hp, ih ⟨l, hl2, hbad⟩]

/-- takeWhile of a list split around the first failing element keeps exactly
the prefix. -/
theorem takeWhile_middle (p : α → Bool) (xs : List α) (y : α) (ys : List α)
    (hx : ∀ x ∈ xs, p x = true) (hy : p y = false) :
    (xs ++ y :: ys).takeWhile p = xs := by
  induction xs with
  | nil => simp [List.takeWhile_cons, hy]
  | cons a xs ih =>
    have ha : p a = true := hx a (List.mem_cons_self a xs)
    simp [List.takeWhile_cons, ha,
      ih (fun x hx2 => hx x (List.mem_cons_of_mem _ hx2))]

/-- Parsing a list of well-formed lines succeeds with one record per line, in
order, each carrying the first token as name and the decoded second token as
status. -/
theorem parseLines_wellformed (dir : String) (ls : List String)
    (hwf : ∀ l ∈ ls, ∃ nm st ts bs, splitWhitespace l = nm :: st :: ts ∧
        BoxStatus.fromStr st = some bs) :
    ∃ recs, parseLines dir ls = Except.ok recs ∧ recs.length = ls.length ∧
      ∀ (i : ℕ) (l nm st : String) (ts : List String) (bs : BoxStatus),
        ls.get? i = some l → splitWhitespace l = nm :: st :: ts →
        BoxStatus.fromStr st = some bs →
        recs.get? i = some { path := dir, name := nm, initial_status := bs } := by
  induction ls with
  | nil =>
    refine ⟨[], rfl, rfl, ?_⟩
    intro i l nm st ts bs h
    simp at h
  | cons l0 ls ih =>
    obtain ⟨nm0, st0, ts0, bs0, hsp0, hfs0⟩ := hwf l0 (List.mem_cons_self _ _)
    obtain ⟨recs, hrecs, hlen, hpt⟩ :=
      ih (fun l hl => hwf l (List.mem_cons_of_mem _ hl))
    have hp0 : parseBoxLine dir l0 =
        Except.ok { path := dir, name := nm0, initial_status := bs0 } := by
      unfold parseBoxLine
      rw [hsp0]
      show (match BoxStatus.fromStr st0 with
        | none => (Except.error TopError.panicked : Except TopError VagrantBox)
        | some status =>
            Except.ok { path := dir, name := nm0, initial_status := status }) = _
      rw [hfs0]
    refine ⟨{ path := dir, name := nm0, initial_status := bs0 } :: recs, ?_,
      by simp [hlen], ?_⟩
    · simp only [parseLines]
      rw [hp0, hrecs]
    · intro i l nm st ts bs hget hsp hfs
      cases i with
      | zero =>
        have hl0 : l0 = l := by
          simpa using hget
        subst hl0
        rw [hsp0] at hsp
        injection hsp with h1 hsp
        injection hsp with h2 hsp
        subst h1
        subst h2
        rw [hfs0] at hfs
        injection hfs with h3
        subst h3
        rfl
      | succ i =>
        simpa using hpt i l nm st ts bs (by simpa using hget) hsp hfs

/-- Claim C2: a status-listing line in the retained region whose second token
does not case-insensitively match a BoxStatus variant, or that has fewer than
two whitespace tokens, makes the status parse of that directory fail (an
unwrap panic in the source, the uncatchable failure here): the line is not
silently skipped and no partial record list is returned. -/
theorem c2_malformed_line_propagates (v : Vagrant) (w : ExecutionContext)
    (directory stdout l : String) (trace : List Invocation)
    (hout : w.runOutput ⟨v.path, ["status"], some directory⟩ = some stdout)
    (hl : l ∈ ((splitP (fun c => c == '\n') stdout).drop 2).takeWhile
        (fun l2 => !(statusLineEnds l2)))
    (hbad : (splitWhitespace l).length < 2 ∨
        ∃ st, (splitWhitespace l).get? 1 = some st ∧ boxKeywordCI st = false) :
    (v.get_boxes w directory trace).1 = Except.error TopError.panicked := by
  have hbadline : parseBoxLine directory l = Except.error TopError.panicked := by
    rcases hbad with hlen | ⟨st, hget, hci⟩
    · rcases hs : splitWhitespace l with _ | ⟨a, _ | ⟨b, rest⟩⟩
      · unfold parseBoxLine
        rw [hs]
      · unfold parseBoxLine
        rw [hs]
      · rw [hs] at hlen
        simp at hlen
        omega
    · rcases hs : splitWhitespace l with _ | ⟨a, _ | ⟨b, rest⟩⟩ <;> rw [hs] at hget
      · simp at hget
      · simp at hget
      · have hb : b = st := by
          simpa using hget
        subst hb
        have hf : BoxStatus.fromStr b = none := by
          rcases hfs : BoxStatus.fromStr b with _ | x
          · rfl
          · rw [fromStr_some_keywordCI hfs] at hci
            exact absurd hci (by simp)
        unfold parseBoxLine
        rw [hs]
        show (match BoxStatus.fromStr b with
          | none => (Except.error TopError.panicked : Except TopError VagrantBox)
          | some status =>
              Except.ok { path := directory, name := a, initial_status := status }) = _
        rw [hf]
    
  simp only [Vagrant.get_boxes]
  rw [hout]
  exact parseLines_bad ⟨l, hl, hbadline⟩

/-- Claim C2 witness: in the concrete world, the listing under /a retains the
line with the unknown keyword halted and get_boxes fails with the modelled
panic rather than returning any record list. -/
theorem c2_malformed_line_propagates_witness :
    ("default halted (virtualbox)" ∈
      ((splitP (fun c => c == '\n') statusTextBad).drop 2).takeWhile
        (fun l2 => !(statusLineEnds l2))) ∧
    boxKeywordCI "halted" = false ∧
    (Vagrant.get_boxes { path := "vagrant" } wParse "/a" []).1 =
      Except.error TopError.panicked := by
  refine ⟨by decide, by decide, ?_⟩
  exact c2_malformed_line_propagates { path := "vagrant" } wParse "/a"
    statusTextBad "default halted (virtualbox)" [] (by decide) (by decide)
    (Or.inr ⟨"halted", by decide, by decide⟩)

/-- Claim C3: a status output of two header lines, then well-formed box
lines, then an empty or carriage-return terminator line, parses to exactly
one record per box line, in input order, with the first token as name and
the decoded second token as status; lines after the terminator contribute
nothing. -/
theorem c3_wellformed_listing_parses (v : Vagrant) (w : ExecutionContext)
    (directory stdout h1 h2 term : String) (boxLines rest : List String)
    (trace : List Invocation)
    (hout : w.runOutput ⟨v.path, ["status"], some directory⟩ = some stdout)
    (hsplit : splitP (fun c => c == '\n') stdout =
        h1 :: h2 :: (boxLines ++ term :: rest))
    (hterm : statusLineEnds term = true)
    (hwf : ∀ l ∈ boxLines, statusLineEnds l = false ∧
        ∃ nm st ts bs, splitWhitespace l = nm :: st :: ts ∧
          BoxStatus.fromStr st = some bs) :
    ∃ recs, v.get_boxes w directory trace =
        (Except.ok recs, trace ++ [⟨v.path, ["status"], some directory⟩]) ∧
      recs.length = boxLines.length ∧
      ∀ (i : ℕ) (l nm st : String) (ts : List String) (bs : BoxStatus),
        boxLines.get? i = some l → splitWhitespace l = nm :: st :: ts →
        BoxStatus.fromStr st = some bs →
        recs.get? i = some { path := directory, name := nm, initial_status := bs } := by
  have htake : ((splitP (fun c => c == '\n') stdout).drop 2).takeWhile
      (fun l => !(statusLineEnds l)) = boxLines := by
    rw [hsplit]
    show (boxLines ++ term :: rest).takeWhile (fun l => !(statusLineEnds l)) = boxLines
    exact takeWhile_middle _ boxLines term rest
      (fun x hx => by simp [(hwf x hx).1]) (by simp [hterm])
  obtain ⟨recs, hrecs, hlen, hpt⟩ :=
    parseLines_wellformed directory boxLines (fun l hl => (hwf l hl).2)
  refine ⟨recs, ?_, hlen, hpt⟩
  simp only [Vagrant.get_boxes]
  rw [hout]
  show (parseLines directory (((splitP (fun c => c == '\n') stdout).drop 2).takeWhile
      (fun l => !(statusLineEnds l))),
    trace ++ [⟨v.path, ["status"], some directory⟩]) =
    (Except.ok recs, trace ++ [⟨v.path, ["status"], some directory⟩])
  rw [htake, hrecs]

/-- Claim C3 witness: the concrete two-box listing under /b parses to its
two records in order with the correct names and statuses. -/
theorem c3_wellformed_listing_parses_witness :
    ∃ recs, Vagrant.get_boxes { path := "vagrant" } wParse "/b" [] =
        (Except.ok recs, [⟨"vagrant", ["status"], some "/b"⟩]) ∧
      recs.length = (["default saved (virtualbox)",
        "web running (virtualbox)"] : List String).length ∧
      ∀ (i : ℕ) (l nm st : String) (ts : List String) (bs : BoxStatus),
        (["default saved (virtualbox)",
          "web running (virtualbox)"] : List String).get? i = some l →
        splitWhitespace l = nm :: st :: ts →
        BoxStatus.fromStr st = some bs →
        recs.get? i = some { path := "/b", name := nm, initial_status := bs } := by
  refine c3_wellformed_listing_parses { path := "vagrant" } wParse "/b"
    statusTextTwo "Current machine states:" ""
    "" ["default saved (virtualbox)", "web running (virtualbox)"]
    ["This environment represents multiple VMs.", ""] [] (by decide) (by decide)
    (by decide) ?_
  intro l hl
  rcases List.mem_cons.mp hl with rfl | hl2
  · exact ⟨by decide,
      "default", "saved", ["(virtualbox)"], BoxStatus.saved, by decide, by decide⟩
  · rcases List.mem_cons.mp hl2 with rfl | hl3
    · exact ⟨by decide,
        "web", "running", ["(virtualbox)"], BoxStatus.running, by decide, by decide⟩
    · simp at hl3

/-- Claim C10: for a box whose name is the placeholder default, smart_name is
exactly the optional final path segment of the location, so when the path has
no final component the call panics (returns no value, modelled as none)
instead of producing a name. The other partiality of the source, a final
segment that is not valid UTF-8, is outside this embedding since the model
has no non-UTF-8 paths. -/
theorem c10_smart_name_partial (b : VagrantBox) (hname : b.name = "default") :
    b.smart_name = pathFileName b.path ∧
    (pathFileName b.path = none → b.smart_name = none) := by
  have h : b.smart_name = pathFileName b.path := by
    unfold VagrantBox.smart_name
    rw [if_pos (by simp [hname])]
  exact ⟨h, fun hn => h.trans hn⟩

/-- Claim C10 witness: the default-named box at the filesystem root has no
final path segment and smart_name produces no value. -/
theorem c10_smart_name_partial_witness :
    ({ path := "/", name := "default", initial_status := BoxStatus.powerOff } :
      VagrantBox).smart_name = none ∧ pathFileName "/" = none := by
  have h := c10_smart_name_partial
    { path := "/", name := "default", initial_status := BoxStatus.powerOff } rfl
  exact ⟨h.2 (by decide), by decide⟩

/-- Claim C5: on guard release the restoration subcommand is suspend
whenever the always-suspend policy is enabled, regardless of the initial
status; otherwise halt for PowerOff or Aborted and suspend for Saved, run
with the box name in the box directory. -/
theorem c5_restore_subcommand (g : TemporaryPowerOn) (w : ExecutionContext)
    (trace : List Invocation) :
    (w.vagrant_always_suspend.getD false = true →
      TemporaryPowerOn.drop g w trace = some (trace ++
        [⟨g.vagrant, ["suspend", g.vagrant_box.name], some g.vagrant_box.path⟩])) ∧
    (w.vagrant_always_suspend.getD false = false →
      ((g.vagrant_box.initial_status = BoxStatus.powerOff ∨
          g.vagrant_box.initial_status = BoxStatus.aborted →
        TemporaryPowerOn.drop g w trace = some (trace ++
          [⟨g.vagrant, ["halt", g.vagrant_box.name], some g.vagrant_box.path⟩])) ∧
       (g.vagrant_box.initial_status = BoxStatus.saved →
        TemporaryPowerOn.drop g w trace = some (trace ++
          [⟨g.vagrant, ["suspend", g.vagrant_box.name], some g.vagrant_box.path⟩])))) := by
  constructor
  · intro ha
    unfold TemporaryPowerOn.drop
    rw [ha]
    rfl
  · intro hn
    constructor
    · intro hd
      rcases hd with hst | hst <;> (unfold TemporaryPowerOn.drop; rw [hn, hst]; rfl)
    · intro hst
      unfold TemporaryPowerOn.drop
      rw [hn, hst]
      rfl

/-- Claim C5 witness: with the always-suspend policy enabled the concrete
guard over the suspended box restores with suspend. -/
theorem c5_restore_subcommand_witness :
    TemporaryPowerOn.drop ⟨"vagrant", boxWeb⟩ wAlwaysSuspend [] =
      some [⟨"vagrant", ["suspend", "default"], some "/vm/web"⟩] :=
  (c5_restore_subcommand ⟨"vagrant", boxWeb⟩ wAlwaysSuspend []).1 (by decide)

/-- Claim C4: for a non-running box, guard creation issues up for PowerOff
and Aborted and resume for Saved, in the box directory; when that subcommand
fails, creation returns the failure, no guard exists, and the run for that
box ends with only that one invocation issued, so no in-guest command and no
restoration happen. -/
theorem c4_power_up (w : ExecutionContext) (b : VagrantBox)
    (trace : List Invocation) (vg sn : String)
    (hvg : w.require_vagrant = some vg)
    (hsn : b.smart_name = some sn)
    (hoff : b.initial_status.powered_on = false)
    (hpol : w.vagrant_power_on.getD true = true) :
    ∃ up, powerUpSub b.initial_status = some up ∧
      (b.initial_status = BoxStatus.powerOff ∨
        b.initial_status = BoxStatus.aborted → up = "up") ∧
      (b.initial_status = BoxStatus.saved → up = "resume") ∧
      TemporaryPowerOn.create vg b w trace =
        (if w.runStatus ⟨vg, [up, b.name], some b.path⟩ then
          (Except.ok ⟨vg, b⟩, trace ++ [⟨vg, [up, b.name], some b.path⟩])
         else
          (Except.error TopError.cmdFailed,
            trace ++ [⟨vg, [up, b.name], some b.path⟩])) ∧
      (w.runStatus ⟨vg, [up, b.name], some b.path⟩ = false →
        TemporaryPowerOn.create vg b w trace =
          (Except.error TopError.cmdFailed,
            trace ++ [⟨vg, [up, b.name], some b.path⟩]) ∧
        topgrade_vagrant_box w b trace =
          (Except.error TopError.cmdFailed,
            trace ++ [⟨vg, [up, b.name], some b.path⟩])) := by
  have hrun : ∀ up2, powerUpSub b.initial_status = some up2 →
      TemporaryPowerOn.create vg b w trace =
        (if w.runStatus ⟨vg, [up2, b.name], some b.path⟩ then
          (Except.ok ⟨vg, b⟩, trace ++ [⟨vg, [up2, b.name], some b.path⟩])
         else
          (Except.error TopError.cmdFailed,
            trace ++ [⟨vg, [up2, b.name], some b.path⟩])) := by
    intro up2 hup2
    unfold TemporaryPowerOn.create
    rw [hup2]
  have hfailrun : ∀ up2, powerUpSub b.initial_status = some up2 →
      w.runStatus ⟨vg, [up2, b.name], some b.path⟩ = false →
      TemporaryPowerOn.create vg b w trace =
        (Except.error TopError.cmdFailed,
          trace ++ [⟨vg, [up2, b.name], some b.path⟩]) := by
    intro up2 hup2 hfail
    rw [hrun up2 hup2, hfail]
    simp
  have htop : ∀ up2, powerUpSub b.initial_status = some up2 →
      w.runStatus ⟨vg, [up2, b.name], some b.path⟩ = false →
      topgrade_vagrant_box w b trace =
        (Except.error TopError.cmdFailed,
          trace ++ [⟨vg, [up2, b.name], some b.path⟩]) := by
    intro up2 hup2 hfail
    simp only [topgrade_vagrant_box, hvg, hsn, hoff, Bool.false_eq_true,
      if_false, hpol, Bool.not_true, hfailrun up2 hup2 hfail]
  rcases hst : b.initial_status with _ | _ | _ | _
  · exact ⟨"up", by decide, fun _ => rfl, fun h => absurd h (by decide),
      hrun "up" (by rw [hst]; rfl),
      fun hfail => ⟨hfailrun "up" (by rw [hst]; rfl) hfail, htop "up" (by rw [hst]; rfl) hfail⟩⟩
  · rw [hst] at hoff
    exact absurd hoff (by decide)
  · exact ⟨"resume", by decide,
      fun h => by rcases h with h | h <;> exact absurd h (by decide),
      fun _ => rfl, hrun "resume" (by rw [hst]; rfl),
      fun hfail => ⟨hfailrun "resume" (by rw [hst]; rfl) hfail,
        htop "resume" (by rw [hst]; rfl) hfail⟩⟩
  · exact ⟨"up", by decide, fun _ => rfl, fun h => absurd h (by decide),
      hrun "up" (by rw [hst]; rfl),
      fun hfail => ⟨hfailrun "up" (by rw [hst]; rfl) hfail, htop "up" (by rw [hst]; rfl) hfail⟩⟩

/-- String concatenation is associative. -/
theorem string_append_assoc (a b c : String) : a ++ b ++ c = a ++ (b ++ c) :=
  string_data_inj (by simp [string_append_data])

/-- A powered-down status always has a restoration subcommand, and it is
halt or suspend. -/
theorem restoreSub_not_running (a : Bool) (st : BoxStatus)
    (h : st.powered_on = false) :
    ∃ r, restoreSub a st = some r ∧ (r = "halt" ∨ r = "suspend") := by
  rcases st with _ | _ | _ | _
  · cases a
    · exact ⟨"halt", rfl, Or.inl rfl⟩
    · exact ⟨"suspend", rfl, Or.inr rfl⟩
  · exact absurd h (by decide)
  · cases a
    · exact ⟨"suspend", rfl, Or.inr rfl⟩
    · exact ⟨"suspend", rfl, Or.inr rfl⟩
  · cases a
    · exact ⟨"halt", rfl, Or.inl rfl⟩
    · exact ⟨"suspend", rfl, Or.inr rfl⟩

/-- The power-up subcommand is always up or resume. -/
theorem powerUpSub_vals {st : BoxStatus} {u : String}
    (h : powerUpSub st = some u) : u = "up" ∨ u = "resume" := by
  rcases st with _ | _ | _ | _
  · have h2 : some "up" = some u := h
    injection h2 with h2
    exact Or.inl h2.symm
  · have h2 : (none : Option String) = some u := h
    exact absurd h2 (by simp)
  · have h2 : some "resume" = some u := h
    injection h2 with h2
    exact Or.inr h2.symm
  · have h2 : some "up" = some u := h
    injection h2 with h2
    exact Or.inl h2.symm

/-- A successful power-up invocation yields the guard and appends exactly
that invocation. -/
theorem create_ok_eq (w : ExecutionContext) (b : VagrantBox)
    (trace : List Invocation) (vg up : String)
    (hup : powerUpSub b.initial_status = some up)
    (hcreate : w.runStatus ⟨vg, [up, b.name], some b.path⟩ = true) :
    TemporaryPowerOn.create vg b w trace =
      (Except.ok ⟨vg, b⟩, trace ++ [⟨vg, [up, b.name], some b.path⟩]) := by
  unfold TemporaryPowerOn.create
  rw [hup]
  show (if w.runStatus ⟨vg, [up, b.name], some b.path⟩ then
      ((Except.ok ⟨vg, b⟩ : Except TopError TemporaryPowerOn),
        trace ++ [⟨vg, [up, b.name], some b.path⟩])
    else (Except.error TopError.cmdFailed,
        trace ++ [⟨vg, [up, b.name], some b.path⟩])) = _
  rw [hcreate]
  rfl

/-- Guard release appends exactly the restoration invocation. -/
theorem drop_eq (g : TemporaryPowerOn) (w : ExecutionContext)
    (tr : List Invocation) (rsub : String)
    (hrs : restoreSub (w.vagrant_always_suspend.getD false)
      g.vagrant_box.initial_status = some rsub) :
    TemporaryPowerOn.drop g w tr = some (tr ++
      [⟨g.vagrant, [rsub, g.vagrant_box.name], some g.vagrant_box.path⟩]) := by
  unfold TemporaryPowerOn.drop
  rw [hrs]

/-- The in-guest phase under a guard: the remote command invocation followed
by the restoration invocation, with the result taken from the remote command
alone. -/
theorem runSshPhase_some (w : ExecutionContext) (vg sn : String)
    (b : VagrantBox) (trace : List Invocation) (rsub : String)
    (hrs : restoreSub (w.vagrant_always_suspend.getD false)
      b.initial_status = some rsub) :
    runSshPhase w vg b sn trace (some ⟨vg, b⟩) =
      ((if w.runStatus ⟨vg, ["ssh", "-c", sshCommandString sn w.yes_vagrant],
          some b.path⟩ then Except.ok () else Except.error TopError.cmdFailed),
       trace ++ [⟨vg, ["ssh", "-c", sshCommandString sn w.yes_vagrant], some b.path⟩,
         ⟨vg, [rsub, b.name], some b.path⟩]) := by
  have hd := drop_eq ⟨vg, b⟩ w
    (trace ++ [⟨vg, ["ssh", "-c", sshCommandString sn w.yes_vagrant], some b.path⟩])
    rsub hrs
  simp only [runSshPhase]
  rw [hd]
  simp [List.append_assoc]

/-- The full run of a non-running box whose power-up succeeds: exactly the
power-up, remote-command, and restoration invocations in that order, with
the result of the remote command returned. -/
theorem topgrade_guarded_eq (w : ExecutionContext) (b : VagrantBox)
    (trace : List Invocation) (vg sn up rsub : String)
    (hvg : w.require_vagrant = some vg)
    (hsn : b.smart_name = some sn)
    (hoff : b.initial_status.powered_on = false)
    (hpol : w.vagrant_power_on.getD true = true)
    (hup : powerUpSub b.initial_status = some up)
    (hcreate : w.runStatus ⟨vg, [up, b.name], some b.path⟩ = true)
    (hrs : restoreSub (w.vagrant_always_suspend.getD false)
      b.initial_status = some rsub) :
    topgrade_vagrant_box w b trace =
      ((if w.runStatus ⟨vg, ["ssh", "-c", sshCommandString sn w.yes_vagrant],
          some b.path⟩ then Except.ok () else Except.error TopError.cmdFailed),
       trace ++ [⟨vg, [up, b.name], some b.path⟩,
         ⟨vg, ["ssh", "-c", sshCommandString sn w.yes_vagrant], some b.path⟩,
         ⟨vg, [rsub, b.name], some b.path⟩]) := by
  have hcr := create_ok_eq w b trace vg up hup hcreate
  simp only [topgrade_vagrant_box, hvg, hsn, hoff, Bool.false_eq_true, if_false,
    hpol, Bool.not_true]
  rw [hcr]
  show runSshPhase w vg b sn (trace ++ [⟨vg, [up, b.name], some b.path⟩])
      (some ⟨vg, b⟩) = _
  refine (runSshPhase_some w vg sn b
    (trace ++ [⟨vg, [up, b.name], some b.path⟩]) rsub hrs).trans ?_
  simp [List.append_assoc]

/-- Claim C1: whenever a guard is successfully created (non-running box,
power-on policy enabled, power-up succeeded), the run of that box issues
exactly one restoration invocation, as the last of exactly three
invocations, regardless of whether the in-guest command succeeds or fails;
it is neither duplicated nor skipped. -/
theorem c1_exactly_one_restoration (w : ExecutionContext) (b : VagrantBox)
    (trace : List Invocation) (vg sn up : String)
    (hvg : w.require_vagrant = some vg)
    (hsn : b.smart_name = some sn)
    (hoff : b.initial_status.powered_on = false)
    (hpol : w.vagrant_power_on.getD true = true)
    (hup : powerUpSub b.initial_status = some up)
    (hcreate : w.runStatus ⟨vg, [up, b.name], some b.path⟩ = true) :
    ∃ res rsub,
      restoreSub (w.vagrant_always_suspend.getD false) b.initial_status = some rsub ∧
      topgrade_vagrant_box w b trace =
        (res, trace ++ [⟨vg, [up, b.name], some b.path⟩,
          ⟨vg, ["ssh", "-c", sshCommandString sn w.yes_vagrant], some b.path⟩,
          ⟨vg, [rsub, b.name], some b.path⟩]) ∧
      (res = Except.ok () ∨ res = Except.error TopError.cmdFailed) ∧
      ((topgrade_vagrant_box w b trace).2.drop trace.length).countP isRestoreInv
        = 1 := by
  obtain ⟨rsub, hrs, hrkind⟩ := restoreSub_not_running _ b.initial_status hoff
  have hmain := topgrade_guarded_eq w b trace vg sn up rsub hvg hsn hoff hpol
    hup hcreate hrs
  have hu : isRestoreInv ⟨vg, [up, b.name], some b.path⟩ = false := by
    rcases powerUpSub_vals hup with rfl | rfl <;> rfl
  have hsh : isRestoreInv
      ⟨vg, ["ssh", "-c", sshCommandString sn w.yes_vagrant], some b.path⟩ = false := rfl
  have hr3 : isRestoreInv ⟨vg, [rsub, b.name], some b.path⟩ = true := by
    rcases hrkind with rfl | rfl <;> rfl
  refine ⟨_, rsub, hrs, hmain, ?_, ?_⟩
  · cases hss : w.runStatus
        ⟨vg, ["ssh", "-c", sshCommandString sn w.yes_vagrant], some b.path⟩ <;>
      simp [hss]
  · rw [hmain]
    simp only [List.drop_left]
    simp [List.countP_cons, hu, hsh, hr3]

/-- Claim C1 witness: the concrete suspended box is resumed, upgraded in
guest, and restored exactly once, with the restoration invocation last. -/
theorem c1_exactly_one_restoration_witness :
    ∃ res rsub,
      restoreSub false BoxStatus.saved = some rsub ∧
      topgrade_vagrant_box wAllOk boxWeb [] =
        (res, [⟨"vagrant", ["resume", "default"], some "/vm/web"⟩,
          ⟨"vagrant", ["ssh", "-c", "env TOPGRADE_PREFIX=web topgrade -y"],
            some "/vm/web"⟩,
          ⟨"vagrant", [rsub, "default"], some "/vm/web"⟩]) ∧
      (res = Except.ok () ∨ res = Except.error TopError.cmdFailed) ∧
      ((topgrade_vagrant_box wAllOk boxWeb []).2.drop 0).countP isRestoreInv = 1 :=
  c1_exactly_one_restoration wAllOk boxWeb [] "vagrant" "web" "resume"
    rfl (by decide) rfl rfl rfl rfl

/-- Claim C4 witness: the concrete suspended box gets the resume power-up in
its directory; when resume fails, guard creation fails and the whole run
issues only that one invocation, with no in-guest command and no
restoration. -/
theorem c4_power_up_witness :
    TemporaryPowerOn.create "vagrant" boxWeb wUpFails [] =
      (Except.error TopError.cmdFailed,
        [⟨"vagrant", ["resume", "default"], some "/vm/web"⟩]) ∧
    topgrade_vagrant_box wUpFails boxWeb [] =
      (Except.error TopError.cmdFailed,
        [⟨"vagrant", ["resume", "default"], some "/vm/web"⟩]) := by
  obtain ⟨up, hup, _, hresume, _, himp⟩ :=
    c4_power_up wUpFails boxWeb [] "vagrant" "web" rfl (by decide) rfl rfl
  have hupv : up = "resume" := hresume rfl
  subst hupv
  exact himp rfl

/-- Claim C6: a failure of the restoration subcommand during guard release
is never propagated. For two worlds that agree on the configuration, the
power-up outcome, and the in-guest command outcome — but may disagree
arbitrarily on the restoration outcome — the result returned to the caller
is identical, and the restoration is still attempted in both. -/
theorem c6_restore_failure_not_propagated (w w2 : ExecutionContext)
    (b : VagrantBox) (trace : List Invocation) (vg sn up : String)
    (hvg : w.require_vagrant = some vg)
    (hsn : b.smart_name = some sn)
    (hoff : b.initial_status.powered_on = false)
    (hpol : w.vagrant_power_on.getD true = true)
    (hup : powerUpSub b.initial_status = some up)
    (hcreate : w.runStatus ⟨vg, [up, b.name], some b.path⟩ = true)
    (hvg2 : w2.require_vagrant = some vg)
    (hpol2 : w2.vagrant_power_on.getD true = true)
    (halws : w2.vagrant_always_suspend.getD false =
      w.vagrant_always_suspend.getD false)
    (hyes : w2.yes_vagrant = w.yes_vagrant)
    (hcreate2 : w2.runStatus ⟨vg, [up, b.name], some b.path⟩ = true)
    (hssh : w2.runStatus
        ⟨vg, ["ssh", "-c", sshCommandString sn w.yes_vagrant], some b.path⟩ =
      w.runStatus
        ⟨vg, ["ssh", "-c", sshCommandString sn w.yes_vagrant], some b.path⟩) :
    (topgrade_vagrant_box w2 b trace).1 = (topgrade_vagrant_box w b trace).1 ∧
    ∃ rsub,
      restoreSub (w.vagrant_always_suspend.getD false) b.initial_status = some rsub ∧
      (⟨vg, [rsub, b.name], some b.path⟩ : Invocation) ∈
        (topgrade_vagrant_box w b trace).2 ∧
      (⟨vg, [rsub, b.name], some b.path⟩ : Invocation) ∈
        (topgrade_vagrant_box w2 b trace).2 := by
  obtain ⟨rsub, hrs, _⟩ := restoreSub_not_running _ b.initial_status hoff
  have hrs2 : restoreSub (w2.vagrant_always_suspend.getD false)
      b.initial_status = some rsub := by
    rw [halws]
    exact hrs
  have hm1 := topgrade_guarded_eq w b trace vg sn up rsub hvg hsn hoff hpol
    hup hcreate hrs
  have hm2 := topgrade_guarded_eq w2 b trace vg sn up rsub hvg2 hsn hoff hpol2
    hup hcreate2 hrs2
  constructor
  · rw [hm1, hm2, hyes, hssh]
  · refine ⟨rsub, hrs, ?_, ?_⟩
    · rw [hm1]
      simp
    · rw [hm2]
      simp

/-- Claim C6 witness: with every restoration failing but power-up and the
in-guest command succeeding, the result equals the one of the all-success
world and the restoration is attempted in both. -/
theorem c6_restore_failure_not_propagated_witness :
    (topgrade_vagrant_box wRestoreFails boxWeb []).1 =
      (topgrade_vagrant_box wAllOk boxWeb []).1 ∧
    ∃ rsub,
      restoreSub false BoxStatus.saved = some rsub ∧
      (⟨"vagrant", [rsub, "default"], some "/vm/web"⟩ : Invocation) ∈
        (topgrade_vagrant_box wAllOk boxWeb []).2 ∧
      (⟨"vagrant", [rsub, "default"], some "/vm/web"⟩ : Invocation) ∈
        (topgrade_vagrant_box wRestoreFails boxWeb []).2 :=
  c6_restore_failure_not_propagated wAllOk wRestoreFails boxWeb []
    "vagrant" "web" "resume" rfl (by decide) rfl rfl rfl rfl rfl rfl rfl rfl rfl rfl

/-- Claim C7: a non-running box under a disabled power-on policy is skipped:
the run returns the typed skip signal (not the command-failure error)
carrying the skip message, that message contains the display name of the
box, and not a single external invocation is issued. -/
theorem c7_skip_outcome (w : ExecutionContext) (b : VagrantBox)
    (trace : List Invocation) (vg sn : String)
    (hvg : w.require_vagrant = some vg)
    (hsn : b.smart_name = some sn)
    (hoff : b.initial_status.powered_on = false)
    (hpol : w.vagrant_power_on.getD true = false) :
    topgrade_vagrant_box w b trace =
      (Except.error (TopError.skip (skipMessage b)), trace) ∧
    (∃ u v : String, skipMessage b = u ++ sn ++ v) ∧
    (∀ m, TopError.skip m ≠ TopError.cmdFailed) := by
  refine ⟨?_, ?_, fun m h => by cases h⟩
  · simp only [topgrade_vagrant_box, hvg, hsn, hoff, Bool.false_eq_true, if_false,
      hpol, Bool.not_false, if_true]
  · by_cases hd : b.name = "default"
    · have hp : pathFileName b.path = some sn := by
        have h2 := hsn
        unfold VagrantBox.smart_name at h2
        rw [if_pos (by simp [hd])] at h2
        exact h2
      obtain ⟨u, v, huv⟩ := pathFileName_substring b.path sn hp
      refine ⟨"Skipping powered off box " ++ b.name ++ " @ " ++ u, v, ?_⟩
      unfold skipMessage VagrantBox.displayString
      rw [huv]
      simp only [string_append_assoc]
    · have hnm : sn = b.name := by
        have h2 := hsn
        unfold VagrantBox.smart_name at h2
        rw [if_neg (by simpa using hd)] at h2
        injection h2 with h2
        exact h2.symm
      subst hnm
      refine ⟨"Skipping powered off box ", " @ " ++ b.path, ?_⟩
      unfold skipMessage VagrantBox.displayString
      simp only [string_append_assoc]

/-- Claim C7 witness: with the power-on policy disabled the suspended box is
skipped with the skip signal, its message contains the display name web, and
the trace stays empty. -/
theorem c7_skip_outcome_witness :
    topgrade_vagrant_box wNoPowerOn boxWeb [] =
      (Except.error (TopError.skip (skipMessage boxWeb)), []) ∧
    (∃ u v : String, skipMessage boxWeb = u ++ "web" ++ v) ∧
    (∀ m, TopError.skip m ≠ TopError.cmdFailed) :=
  c7_skip_outcome wNoPowerOn boxWeb [] "vagrant" "web" rfl (by decide) rfl rfl

/-- The parse outcome of one directory does not depend on the trace passed
in. -/
theorem get_boxes_fst_const (v : Vagrant) (w : ExecutionContext) (d : String)
    (tr : List Invocation) :
    (v.get_boxes w d tr).1 = (v.get_boxes w d []).1 := by
  simp only [Vagrant.get_boxes]
  rcases hout2 : w.runOutput ⟨v.path, ["status"], some d⟩ with _ | stdout <;>
    simp [hout2]

/-- Claim C8 counterexample: in the concrete world the listing under /a has
a malformed status line while /b is healthy; collect_boxes ends in the
modelled panic, returns no aggregate list at all, and the healthy boxes of
/b do not appear, refuting that a parse failure is merely logged and
excluded. -/
theorem c8_counterexample :
    (collect_boxes wParse []).1 = Except.error TopError.panicked ∧
    (∀ boxes, (collect_boxes wParse []).1 ≠ Except.ok boxes) ∧
    (Vagrant.get_boxes ⟨"vagrant"⟩ wParse "/b" []).1 =
      Except.ok [⟨"/b", "default", BoxStatus.saved⟩,
        ⟨"/b", "web", BoxStatus.running⟩] := by
  refine ⟨rfl, ?_, rfl⟩
  intro boxes h
  have h0 : (collect_boxes wParse []).1 = Except.error TopError.panicked := rfl
  rw [h0] at h
  exact Except.noConfusion h

/-- Claim C8 as amended: provided the directories are configured, the tool
resolves, and no directory listing is malformed (no parse panic), a
directory whose status command fails outright is logged and excluded while
the boxes of every other directory still appear, in directory order. -/
theorem c8_tool_failures_excluded (w : ExecutionContext) (ds : List String)
    (vp : String) (trace : List Invocation)
    (hds : w.vagrant_directories = some ds)
    (hvp : w.require_vagrant = some vp)
    (hnp : ∀ d ∈ ds, (Vagrant.get_boxes ⟨vp⟩ w d []).1 ≠
      Except.error TopError.panicked) :
    (collect_boxes w trace).1 =
      Except.ok (concatMap
        (fun d => okBoxes (Vagrant.get_boxes ⟨vp⟩ w d []).1) ds) := by
  have hloop : ∀ (ds2 : List String) (tr : List Invocation),
      (∀ d ∈ ds2, (Vagrant.get_boxes ⟨vp⟩ w d []).1 ≠
        Except.error TopError.panicked) →
      (collectLoop ⟨vp⟩ w ds2 tr).1 =
        Except.ok (concatMap
          (fun d => okBoxes (Vagrant.get_boxes ⟨vp⟩ w d []).1) ds2) := by
    intro ds2
    induction ds2 with
    | nil =>
      intro tr _
      rfl
    | cons d ds2 ih =>
      intro tr hnp2
      rcases hres : Vagrant.get_boxes ⟨vp⟩ w d tr with ⟨r, tr2⟩
      have hr0 : (Vagrant.get_boxes ⟨vp⟩ w d []).1 = r := by
        rw [← get_boxes_fst_const ⟨vp⟩ w d tr, hres]
      rcases r with e | boxes
      · have hne : e ≠ TopError.panicked := by
          intro he
          exact hnp2 d (List.mem_cons_self _ _) (by rw [hr0, he])
        rcases e with m | _ | _ | _ | _
        · simp only [collectLoop, hres]
          rw [ih tr2 (fun d2 hd2 => hnp2 d2 (List.mem_cons_of_mem _ hd2))]
          simp only [concatMap]
          rw [hr0]
          rfl
        · simp only [collectLoop, hres]
          rw [ih tr2 (fun d2 hd2 => hnp2 d2 (List.mem_cons_of_mem _ hd2))]
          simp only [concatMap]
          rw [hr0]
          rfl
        · simp only [collectLoop, hres]
          rw [ih tr2 (fun d2 hd2 => hnp2 d2 (List.mem_cons_of_mem _ hd2))]
          simp only [concatMap]
          rw [hr0]
          rfl
        · simp only [collectLoop, hres]
          rw [ih tr2 (fun d2 hd2 => hnp2 d2 (List.mem_cons_of_mem _ hd2))]
          simp only [concatMap]
          rw [hr0]
          rfl
        · exact absurd rfl hne
      · simp only [collectLoop, hres]
        rcases hres2 : collectLoop ⟨vp⟩ w ds2 tr2 with ⟨r2, tr3⟩
        have hr2 : r2 = Except.ok (concatMap
            (fun d2 => okBoxes (Vagrant.get_boxes ⟨vp⟩ w d2 []).1) ds2) := by
          rw [← ih tr2 (fun d2 hd2 => hnp2 d2 (List.mem_cons_of_mem _ hd2)), hres2]
        subst hr2
        simp only [hres2]
        simp only [concatMap]
        rw [hr0]
        rfl
  simp only [collect_boxes, hds, hvp]
  exact hloop ds trace hnp

/-- Claim C8 amended-claim witness: with the /a status command failing
outright and /b healthy, collection still returns the two /b boxes. -/
theorem c8_tool_failures_excluded_witness :
    (collect_boxes wExitFail []).1 =
      Except.ok [⟨"/b", "default", BoxStatus.saved⟩,
        ⟨"/b", "web", BoxStatus.running⟩] :=
  c8_tool_failures_excluded wExitFail ["/a", "/b"] "vagrant" [] rfl rfl (by
    intro d hd
    rcases List.mem_cons.mp hd with rfl | hd2
    · have h2 : (Vagrant.get_boxes ⟨"vagrant"⟩ wExitFail "/a" []).1 =
          Except.error TopError.cmdFailed := rfl
      rw [h2]
      intro h
      injection h with h3
      exact TopError.noConfusion h3
    · rcases List.mem_cons.mp hd2 with rfl | hd3
      · have h2 : (Vagrant.get_boxes ⟨"vagrant"⟩ wExitFail "/b" []).1 =
            Except.ok [⟨"/b", "default", BoxStatus.saved⟩,
              ⟨"/b", "web", BoxStatus.running⟩] := rfl
        rw [h2]
        intro h
        exact Except.noConfusion h
      · simp at hd3)

/-- Claim C9: with the outdated report in hand, reconciliation issues one
update per pattern match, in report order, each carrying both captures; with
at least one match a single prune follows all updates; with no match there
are no update and no prune invocations and the no-outdated-boxes message is
printed instead. -/
theorem c9_fleet_reconciliation (w : ExecutionContext) (trace : List Invocation)
    (vg text : String)
    (hvg : w.require_vagrant = some vg)
    (hout : w.runOutput (outdatedInv vg) = some text) :
    (findMatches text.data = [] →
      upgrade_vagrant_boxes w trace =
        { result := Except.ok (), trace := trace ++ [outdatedInv vg],
          printedNoOutdated := true }) ∧
    (findMatches text.data ≠ [] →
      ∃ r, upgrade_vagrant_boxes w trace =
          { result := r,
            trace := trace ++ [outdatedInv vg] ++
              (findMatches text.data).map (updateInv vg) ++ [pruneInv vg],
            printedNoOutdated := false } ∧
        (r = Except.ok () ∨ r = Except.error TopError.cmdFailed)) := by
  constructor
  · intro hempty
    simp only [upgrade_vagrant_boxes, hvg, hout, hempty]
    simp
  · intro hne
    have hie : (findMatches text.data).isEmpty = false := by
      rcases h : findMatches text.data with _ | ⟨a, as⟩
      · exact absurd h hne
      · rfl
    refine ⟨if w.runStatus (pruneInv vg) then Except.ok ()
      else Except.error TopError.cmdFailed, ?_, ?_⟩
    · simp only [upgrade_vagrant_boxes, hvg, hout, hie]
      simp [List.append_assoc]
    · cases hpr : w.runStatus (pruneInv vg) <;> simp [hpr]

/-- Claim C9 witness: the empty report prints the no-outdated message with
no update or prune call; the concrete two-entry report with a junk line in
between produces exactly two update calls in order with the right box and
provider captures, then one prune. -/
theorem c9_fleet_reconciliation_witness :
    upgrade_vagrant_boxes wNoOutdated [] =
      { result := Except.ok (), trace := [outdatedInv "vagrant"],
        printedNoOutdated := true } ∧
    ∃ r, upgrade_vagrant_boxes wOutdated [] =
        { result := r,
          trace := [outdatedInv "vagrant",
            updateInv "vagrant" ("alpine", "libvirt"),
            updateInv "vagrant" ("jammy", "virtualbox"), pruneInv "vagrant"],
          printedNoOutdated := false } ∧
      (r = Except.ok () ∨ r = Except.error TopError.cmdFailed) := by
  constructor
  · exact (c9_fleet_reconciliation wNoOutdated [] "vagrant" outdatedTextNone
      rfl rfl).1 (by decide)
  · obtain ⟨r, hr, hc⟩ := (c9_fleet_reconciliation wOutdated [] "vagrant"
      outdatedTextTwo rfl rfl).2 (by decide)
    exact ⟨r, hr, hc⟩
